import Mathlib

/-!
Verification of the workspaces webview, the commit-search wizard, the
generate-commit-message command and the graph webview app of this repository.
Each definition is a shallow embedding of the corresponding TypeScript
function; the theorems settle the specification claims against them.
-/

namespace GitLens

/-! ### Workspaces webview (src/plus/webviews/workspaces/workspacesWebview.ts) -/

/-- Review decisions referenced by `getScore`; `ReviewRequired` stands for any
other value of the imported enum. -/
inductive PullRequestReviewDecision where
  | Approved
  | ChangesRequested
  | ReviewRequired
deriving DecidableEq, Repr

/-- Mergeable states referenced by `getScore`; `Unknown` stands for any other
value of the imported enum. -/
inductive PullRequestMergeableState where
  | Mergeable
  | Conflicting
  | Unknown
deriving DecidableEq, Repr

structure PullRequest where
  reviewDecision : PullRequestReviewDecision
  mergeableState : PullRequestMergeableState
  /-- `pullRequest.date.getTime()`, milliseconds since the epoch. -/
  date : Int
deriving DecidableEq, Repr

structure SearchedPullRequest where
  pullRequest : PullRequest
  reasons : List String
deriving DecidableEq, Repr

/-- `getScore` from `getMyPullRequests` (workspacesWebview.ts, lines 117-142). -/
def getScore (pr : SearchedPullRequest) : Int :=
  let reasonScore : Int :=
    if pr.reasons.contains "author" then 1000
    else if pr.reasons.contains "assignee" then 900
    else if pr.reasons.contains "reviewer" then 800
    else if pr.reasons.contains "mentioned" then 700
    else 0
  let reviewScore : Int :=
    if pr.pullRequest.reviewDecision = PullRequestReviewDecision.Approved then
      if pr.pullRequest.mergeableState = PullRequestMergeableState.Mergeable then 100
      else if pr.pullRequest.mergeableState = PullRequestMergeableState.Conflicting then 90
      else 80
    else if pr.pullRequest.reviewDecision = PullRequestReviewDecision.ChangesRequested then 70
    else 0
  reasonScore + reviewScore

/-- The comparator passed to `allPrs.sort` (lines 144-152): a negative result
orders the first argument before the second. -/
def prCompare (a b : SearchedPullRequest) : Int :=
  if getScore a = getScore b then a.pullRequest.date - b.pullRequest.date
  else getScore b - getScore a

/-- The total preorder induced by `prCompare`: `a` may be placed before `b`. -/
def prSortLE (a b : SearchedPullRequest) : Prop := prCompare a b ≤ 0

instance : DecidableRel prSortLE := fun a b =>
  inferInstanceAs (Decidable (prCompare a b ≤ 0))

instance : IsTotal SearchedPullRequest prSortLE := by
  constructor
  intro a b
  unfold prSortLE prCompare
  split_ifs <;> omega

instance : IsTrans SearchedPullRequest prSortLE := by
  constructor
  intro a b c hab hbc
  unfold prSortLE prCompare at *
  split_ifs at * <;> omega

/-- `allPrs.sort(comparator)`: JavaScript `Array.prototype.sort` with a
consistent comparator is a stable sort, modelled by insertion sort over the
comparator's preorder. -/
def sortPullRequests (l : List SearchedPullRequest) : List SearchedPullRequest :=
  List.insertionSort prSortLE l

/-- The accumulation loop of `getMyPullRequests` (lines 108-115): per-provider
results, `null` responses skipped, only pull requests with at least one
reason kept. -/
def collectPullRequests (fetched : List (Option (List SearchedPullRequest))) :
    List SearchedPullRequest :=
  fetched.foldl
    (fun acc prs =>
      match prs with
      | none => acc
      | some prs => acc ++ prs.filter (fun pr => !pr.reasons.isEmpty))
    []

/-- The fetch-then-sort computation performed by `getMyPullRequests`
(lines 105-156) when the cache is empty. -/
def fetchMyPullRequests (fetched : List (Option (List SearchedPullRequest))) :
    List SearchedPullRequest :=
  sortPullRequests (collectPullRequests fetched)

/-- C1: For every fetched list of pull requests, the displayed order equals
sorting by descending score — a reason bonus from the first applicable reason
in priority order (author 1000, assignee 900, reviewer 800, mentioned 700,
else 0) plus a review bonus (Approved/Mergeable 100, Approved/Conflicting 90,
Approved otherwise 80, ChangesRequested 70, else 0) — with equal scores
ordered by ascending pull-request date; and it is a permutation of the
collected list. -/
theorem c1_pull_request_display_order
    (fetched : List (Option (List SearchedPullRequest))) :
    List.Sorted
      (fun a b =>
        getScore b < getScore a ∨
          (getScore a = getScore b ∧ a.pullRequest.date ≤ b.pullRequest.date))
      (fetchMyPullRequests fetched) ∧
    (fetchMyPullRequests fetched).Perm (collectPullRequests fetched) := by
  constructor
  · have h := List.sorted_insertionSort prSortLE (collectPullRequests fetched)
    refine h.imp ?_
    intro a b hab
    unfold prSortLE prCompare at hab
    by_cases hs : getScore a = getScore b
    · right
      rw [if_pos hs] at hab
      exact ⟨hs, by omega⟩
    · left
      rw [if_neg hs] at hab
      omega
  · exact List.perm_insertionSort _ _

structure Issue where
  /-- `issue.updatedDate.getTime()`, milliseconds since the epoch. -/
  updatedDate : Int
deriving DecidableEq, Repr

structure SearchedIssue where
  issue : Issue
  reasons : List String
deriving DecidableEq, Repr

/-- The comparator passed to `allIssues.sort` (line 170):
`(a, b) => b.issue.updatedDate.getTime() - a.issue.updatedDate.getTime()`. -/
def issueCompare (a b : SearchedIssue) : Int :=
  b.issue.updatedDate - a.issue.updatedDate

/-- The total preorder induced by `issueCompare`. -/
def issueSortLE (a b : SearchedIssue) : Prop := issueCompare a b ≤ 0

instance : DecidableRel issueSortLE := fun a b =>
  inferInstanceAs (Decidable (issueCompare a b ≤ 0))

instance : IsTotal SearchedIssue issueSortLE := by
  constructor
  intro a b
  unfold issueSortLE issueCompare
  omega

instance : IsTrans SearchedIssue issueSortLE := by
  constructor
  intro a b c hab hbc
  unfold issueSortLE issueCompare at *
  omega

/-- `allIssues.sort(...)` as a stable sort over the comparator's preorder. -/
def sortIssues (l : List SearchedIssue) : List SearchedIssue :=
  List.insertionSort issueSortLE l

/-- The accumulation loop of `getMyIssues` (lines 161-168). -/
def collectIssues (fetched : List (Option (List SearchedIssue))) :
    List SearchedIssue :=
  fetched.foldl
    (fun acc issues =>
      match issues with
      | none => acc
      | some issues => acc ++ issues.filter (fun issue => !issue.reasons.isEmpty))
    []

/-- The fetch-then-sort computation performed by `getMyIssues`
(lines 158-174) when the cache is empty. -/
def fetchMyIssues (fetched : List (Option (List SearchedIssue))) :
    List SearchedIssue :=
  sortIssues (collectIssues fetched)

/-- The claim's "fixed priority scoring heuristic" transcribed for issues:
issues carry reasons but no review decision, so only the reason bonus can
apply. Named from the spec's words, for comparison with `fetchMyIssues`. -/
def specIssueScore (issue : SearchedIssue) : Int :=
  if issue.reasons.contains "author" then 1000
  else if issue.reasons.contains "assignee" then 900
  else if issue.reasons.contains "reviewer" then 800
  else if issue.reasons.contains "mentioned" then 700
  else 0

/-- An issue whose only reason is `author`, last updated at time 0. -/
def issueAuthor : SearchedIssue := ⟨⟨0⟩, ["author"]⟩

/-- An issue whose only reason is `mentioned`, last updated at time 10. -/
def issueMentioned : SearchedIssue := ⟨⟨10⟩, ["mentioned"]⟩

/-- C5 counterexample: with one provider returning the author issue (score
1000, older) and the mentioned issue (score 700, newer), `getMyIssues`
displays the mentioned issue first — the displayed order is by descending
updated date, not determined by the numeric score. -/
theorem c5_issues_not_sorted_by_score :
    fetchMyIssues [some [issueAuthor, issueMentioned]] = [issueMentioned, issueAuthor] ∧
    specIssueScore issueMentioned < specIssueScore issueAuthor ∧
    ¬ List.Sorted (fun a b => specIssueScore b ≤ specIssueScore a)
        (fetchMyIssues [some [issueAuthor, issueMentioned]]) := by
  refine ⟨by decide, by decide, ?_⟩
  rw [show fetchMyIssues [some [issueAuthor, issueMentioned]] =
        [issueMentioned, issueAuthor] from by decide]
  simp only [List.sorted_cons, List.mem_singleton]
  intro h
  have := h.1 issueAuthor (by simp)
  revert this
  decide

/-- C5 amended: the issue summaries are filtered to those with at least one
reason and sorted by descending updated date (the numeric score heuristic is
not applied to issues). -/
theorem c5_issues_sorted_by_updated_date
    (fetched : List (Option (List SearchedIssue))) :
    List.Sorted (fun a b => b.issue.updatedDate ≤ a.issue.updatedDate)
      (fetchMyIssues fetched) ∧
    (fetchMyIssues fetched).Perm (collectIssues fetched) := by
  constructor
  · have h := List.sorted_insertionSort issueSortLE (collectIssues fetched)
    refine h.imp ?_
    intro a b hab
    unfold issueSortLE issueCompare at hab
    omega
  · exact List.perm_insertionSort _ _

/-- The instance fields `_pullRequests` and `_issues` of `WorkspacesWebview`
(lines 23-24), both initialised to `[]`. -/
structure WorkspacesCache where
  pullRequests : List SearchedPullRequest
  issues : List SearchedIssue
deriving DecidableEq, Repr

/-- `getMyPullRequests` (lines 105-156) as a state transition: when
`_pullRequests.length === 0` it fetches, sorts and stores; otherwise it
returns the cache untouched. The Bool records whether the remote fetch ran. -/
def getMyPullRequests (fetched : List (Option (List SearchedPullRequest)))
    (s : WorkspacesCache) :
    List SearchedPullRequest × WorkspacesCache × Bool :=
  if s.pullRequests.length = 0 then
    let prs := fetchMyPullRequests fetched
    (prs, { s with pullRequests := prs }, true)
  else
    (s.pullRequests, s, false)

/-- `getMyIssues` (lines 158-174) as a state transition, like
`getMyPullRequests`. -/
def getMyIssues (fetched : List (Option (List SearchedIssue)))
    (s : WorkspacesCache) :
    List SearchedIssue × WorkspacesCache × Bool :=
  if s.issues.length = 0 then
    let issues := fetchMyIssues fetched
    (issues, { s with issues := issues }, true)
  else
    (s.issues, s, false)

/-- `getState` (lines 65-83): the pull-request and issue lists it serialises,
the cache afterwards, and whether any remote fetch ran. -/
def getState (fetchedPrs : List (Option (List SearchedPullRequest)))
    (fetchedIssues : List (Option (List SearchedIssue)))
    (s : WorkspacesCache) :
    (List SearchedPullRequest × List SearchedIssue) × WorkspacesCache × Bool :=
  let prStep := getMyPullRequests fetchedPrs s
  let issueStep := getMyIssues fetchedIssues prStep.2.1
  ((prStep.1, issueStep.1), issueStep.2.1, prStep.2.2 || issueStep.2.2)

/-- Modelled from the spec: the `RefreshWorkspaces` command registered at
lines 39-41 calls `this.refresh(true)`, inherited from `WebviewBase`, which
is not under src/; the spec says the caches are "invalidated only by explicit
refresh", so the refresh path clears both instance caches. -/
def refreshWorkspaces (_s : WorkspacesCache) : WorkspacesCache := ⟨[], []⟩

/-- A sample cached pull request used to instantiate cache theorems. -/
def prSample : SearchedPullRequest :=
  ⟨⟨PullRequestReviewDecision.Approved, PullRequestMergeableState.Mergeable, 5⟩, ["author"]⟩

/-- C2: the lists are instance-level caches lazily populated on first access —
the remote fetch runs exactly when the cached array is empty, and a populated
cache makes `getState` return the same lists with the state unchanged and no
fetch; only the (spec-modelled) refresh path clears the caches. -/
theorem c2_cache_discipline
    (fp : List (Option (List SearchedPullRequest)))
    (fi : List (Option (List SearchedIssue)))
    (s : WorkspacesCache)
    (hp : s.pullRequests ≠ []) (hi : s.issues ≠ []) :
    getState fp fi s = ((s.pullRequests, s.issues), s, false) ∧
    (∀ t : WorkspacesCache, t.pullRequests = [] →
      getMyPullRequests fp t =
        (fetchMyPullRequests fp, { t with pullRequests := fetchMyPullRequests fp }, true)) ∧
    (∀ t : WorkspacesCache, t.pullRequests ≠ [] →
      getMyPullRequests fp t = (t.pullRequests, t, false)) ∧
    (∀ t : WorkspacesCache, t.issues = [] →
      getMyIssues fi t = (fetchMyIssues fi, { t with issues := fetchMyIssues fi }, true)) ∧
    (∀ t : WorkspacesCache, t.issues ≠ [] →
      getMyIssues fi t = (t.issues, t, false)) ∧
    (refreshWorkspaces s).pullRequests = [] ∧ (refreshWorkspaces s).issues = [] := by
  have hlen : ∀ l : List SearchedPullRequest, l ≠ [] → l.length ≠ 0 := by
    intro l h
    simpa using h
  have hleni : ∀ l : List SearchedIssue, l ≠ [] → l.length ≠ 0 := by
    intro l h
    simpa using h
  refine ⟨?_, ?_, ?_, ?_, ?_, rfl, rfl⟩
  · simp [getState, getMyPullRequests, getMyIssues, hlen _ hp, hleni _ hi]
  · intro t ht
    simp [getMyPullRequests, ht]
  · intro t ht
    simp [getMyPullRequests, hlen _ ht]
  · intro t ht
    simp [getMyIssues, ht]
  · intro t ht
    simp [getMyIssues, hleni _ ht]

/-- C2 witness: with both caches populated, `getState` returns the cached
lists, leaves the state untouched and performs no remote fetch. -/
theorem c2_cache_discipline_witness :
    getState [] [] ⟨[prSample], [issueAuthor]⟩ =
      (([prSample], [issueAuthor]), ⟨[prSample], [issueAuthor]⟩, false) :=
  (c2_cache_discipline [] [] ⟨[prSample], [issueAuthor]⟩
    (by decide) (by decide)).1

/-! ### Generate-commit-message command (src/commands/git/search.ts, lines 415-509) -/

/-- JavaScript truthiness of a string value: `""` is falsy. -/
def jsStringTruthy (s : String) : Bool := !(s == "")

/-- JavaScript truthiness of a possibly-undefined string (`!openaiApiKey`,
`!result`): undefined and `""` are falsy. -/
def jsTruthy : Option String → Bool
  | none => false
  | some s => jsStringTruthy s

/-- JavaScript `String.prototype.substring(0, n)`: the first `n` characters
(JS counts UTF-16 units; characters model them here). -/
def jsTake (s : String) (n : Nat) : String := ⟨s.data.take n⟩

/-- JavaScript `String.prototype.length` (character count). -/
def jsLength (s : String) : Nat := s.data.length

/-- JavaScript `String.prototype.trim`: strips leading and trailing
whitespace. -/
def jsTrim (s : String) : String :=
  ⟨((s.data.dropWhile Char.isWhitespace).reverse.dropWhile Char.isWhitespace).reverse⟩

/-- The fields of the JSON body built at lines 461-468. -/
structure OpenAICompletionRequest where
  model : String
  prompt : String
  max_tokens : Nat
  temperature : Rat
  top_p : Rat
  stream : Bool
deriving DecidableEq, Repr

/-- The `fetch` call of lines 473-480: URL, method, headers and body. -/
structure CompletionFetchRequest where
  url : String
  method : String
  authorization : String
  contentType : String
  body : OpenAICompletionRequest
deriving DecidableEq, Repr

/-- The host environment the command reads: secret storage, the input-box
result, repository/SCM lookups, the staged diff, and the HTTP response.
`diff = none` models `getDiff` throwing; `diff = some none` models
`diff?.diff == null`; `responseText = none` models a throw while reading
`choices[0].text` of the response. -/
structure GenerateCommitMessageEnv where
  storedKey : Option String
  promptResult : Option String
  repositoryFound : Bool
  scmRepoFound : Bool
  diff : Option (Option String)
  httpOk : Bool
  httpStatus : Nat
  httpStatusText : String
  responseText : Option String
  scmInputValue : String
deriving DecidableEq, Repr

/-- The command's observable effects: secret-store writes, whether the
repository-resolution step ran, the completion request issued, the final SCM
input-box value, the notifications shown, `Logger.error` calls, and whether
the SCM view was shown. -/
structure GenerateCommitMessageOutcome where
  secretWrites : List (String × String)
  repositoryAccessed : Bool
  request : Option CompletionFetchRequest
  scmInput : String
  infoMessages : List String
  warningMessages : List String
  errorMessages : List String
  loggedErrors : List String
  scmViewShown : Bool
deriving DecidableEq, Repr

/-- The API key after the storage-or-prompt step (lines 418-433): the stored
key when truthy, otherwise the truthy input-box result, otherwise nothing. -/
def resolvedKey (env : GenerateCommitMessageEnv) : Option String :=
  if jsTruthy env.storedKey then env.storedKey
  else if jsTruthy env.promptResult then env.promptResult
  else none

/-- The fixed prompt text built at line 460, around the (truncated) diff. -/
def promptPrefix : String :=
  "Commit messages have a less than 50 character short description followed by a new line and then a longer more detailed description. Using an informal tone, write a very concise but meaningful commit message by summarizing the changes in code diff between ---. Don\x27t repeat yourself and avoid punctuation, filler words, filenames, names from the code, and phrases like \"this commit\", \"this diff\", \"this change\", \"these changes\".\n\n---\n"

/-- The truncation warning of lines 500-504. -/
def truncationWarning : String :=
  "The diff of the staged changes had to be truncated to 8000 characters to fit within the OpenAI\x27s limits."

/-- `GenerateCommitMessageCommand.execute` (lines 415-509) as a function from
the host environment to its observable effects. -/
def generateCommitMessage (env : GenerateCommitMessageEnv) : GenerateCommitMessageOutcome :=
  match resolvedKey env with
  | none =>
    -- `if (!result) return;` — before repository access, fetch or secret write
    ⟨[], false, none, env.scmInputValue, [], [], [], [], false⟩
  | some key =>
    let writes := if jsTruthy env.storedKey then [] else [(("gitlens.openai.key" : String), key)]
    if !env.repositoryFound then
      ⟨writes, true, none, env.scmInputValue, [], [], [], [], false⟩
    else if !env.scmRepoFound then
      ⟨writes, true, none, env.scmInputValue, [], [], [], [], false⟩
    else
      match env.diff with
      | none =>
        -- `getDiff` threw: caught at lines 505-508
        ⟨writes, true, none, env.scmInputValue, [], [],
          ["Unable to generate commit message"], ["GenerateCommitMessageCommand"], false⟩
      | some none =>
        -- `diff?.diff == null` (lines 452-456)
        ⟨writes, true, none, env.scmInputValue,
          ["No staged changes to generate a commit message from."], [], [], [], false⟩
      | some (some d) =>
        let code := jsTake d 8000
        let data : OpenAICompletionRequest :=
          ⟨"text-davinci-003", promptPrefix ++ code ++ "\n---", 500, 1/2, 1, false⟩
        let req : CompletionFetchRequest :=
          ⟨"https://api.openai.com/v1/completions", "POST", "Bearer " ++ key,
            "application/json", data⟩
        let warnings := if 8000 < jsLength d then [truncationWarning] else []
        if !env.httpOk then
          -- `!rsp.ok` (lines 482-488): the closure returns, then the
          -- truncation check at line 500 still runs
          ⟨writes, true, some req, env.scmInputValue, [], warnings,
            ["Unable to generate commit message: " ++ toString env.httpStatus ++ ": " ++
              env.httpStatusText], [], false⟩
        else
          match env.responseText with
          | none =>
            -- a throw while reading the response propagates out of
            -- `withProgress` to the catch at lines 505-508
            ⟨writes, true, some req, env.scmInputValue, [], [],
              ["Unable to generate commit message"], ["GenerateCommitMessageCommand"], false⟩
          | some t =>
            let message := jsTrim t
            let newValue :=
              if jsStringTruthy env.scmInputValue then
                env.scmInputValue ++ "\n\n" ++ message
              else message
            ⟨writes, true, some req, newValue, [], warnings, [], [], true⟩

/-- C3: on the success path the command issues exactly one POST to the hosted
completion endpoint with bearer authorization and the JSON body fields
{model, prompt, max_tokens, temperature, top_p, stream}, embedding the first
8000 characters of the staged diff in the prompt; it splices the trimmed
`choices[0].text` into the SCM input (after the existing content and a blank
line when non-empty); a truncation warning is shown iff the diff exceeds
8000 characters; a newly entered key is stored. -/
theorem c3_generate_commit_message_success
    (env : GenerateCommitMessageEnv) (k : String)
    (hkey : resolvedKey env = some k)
    (hrepo : env.repositoryFound = true)
    (hscm : env.scmRepoFound = true)
    (d : String) (hdiff : env.diff = some (some d))
    (hok : env.httpOk = true)
    (t : String) (hresp : env.responseText = some t) :
    (generateCommitMessage env).request =
      some ⟨"https://api.openai.com/v1/completions", "POST", "Bearer " ++ k,
        "application/json",
        ⟨"text-davinci-003", promptPrefix ++ jsTake d 8000 ++ "\n---", 500, 1/2, 1, false⟩⟩ ∧
    (generateCommitMessage env).secretWrites =
      (if jsTruthy env.storedKey then [] else [(("gitlens.openai.key" : String), k)]) ∧
    (generateCommitMessage env).scmInput =
      (if jsStringTruthy env.scmInputValue then env.scmInputValue ++ "\n\n" ++ jsTrim t
        else jsTrim t) ∧
    ((generateCommitMessage env).warningMessages = [truncationWarning] ↔ 8000 < jsLength d) ∧
    (generateCommitMessage env).errorMessages = [] ∧
    (generateCommitMessage env).infoMessages = [] := by
  unfold generateCommitMessage
  rw [hkey, hrepo, hscm, hdiff, hok, hresp]
  simp only [Bool.not_true, Bool.false_eq_true, if_false, ite_false]
  by_cases hl : 8000 < jsLength d <;> simp [hl]

/-- C3 witness: a concrete environment with a stored key, a short staged
diff, an OK response and an empty SCM input. -/
theorem c3_generate_commit_message_success_witness :
    (generateCommitMessage
        ⟨some ("SECRET"), none, true, true, some (some ("DIFF")), true, 200, "OK",
          some (" a message "), ""⟩).request =
      some ⟨"https://api.openai.com/v1/completions", "POST", "Bearer " ++ "SECRET",
        "application/json",
        ⟨"text-davinci-003", promptPrefix ++ jsTake ("DIFF") 8000 ++ "\n---",
          500, 1/2, 1, false⟩⟩ ∧
    (generateCommitMessage
        ⟨some ("SECRET"), none, true, true, some (some ("DIFF")), true, 200, "OK",
          some (" a message "), ""⟩).scmInput = "a message" := by
  have h := c3_generate_commit_message_success
    ⟨some ("SECRET"), none, true, true, some (some ("DIFF")), true, 200, "OK",
      some (" a message "), ""⟩ ("SECRET") rfl rfl rfl ("DIFF") rfl rfl (" a message ") rfl
  refine ⟨h.1, ?_⟩
  rw [h.2.2.1]
  decide

/-- A concrete environment whose completion fetch returns HTTP 401. -/
def envHttpFailure : GenerateCommitMessageEnv :=
  ⟨some ("SECRET"), none, true, true, some (some ("d")), false, 401, "Unauthorized",
    none, "prior"⟩

/-- C4 counterexample: on a non-OK HTTP status the command shows an error
notification but writes no log entry — the claim's "the error is logged and
reported" fails on this failure path (the SCM input is indeed untouched). -/
theorem c4_http_failure_not_logged :
    envHttpFailure.httpOk = false ∧
    (generateCommitMessage envHttpFailure).errorMessages ≠ [] ∧
    (generateCommitMessage envHttpFailure).loggedErrors = [] ∧
    (generateCommitMessage envHttpFailure).scmInput = "prior" := by
  decide

/-- C4 amended: on every failure path (a thrown exception, a missing diff, or
a non-OK HTTP status) the failure is reported to the user as a notification,
a log entry is written in the thrown-exception cases, the operation aborts,
and the SCM input box value is never modified. -/
theorem c4_failures_abort_without_scm_change
    (env : GenerateCommitMessageEnv) (k : String)
    (hkey : resolvedKey env = some k)
    (hrepo : env.repositoryFound = true)
    (hscm : env.scmRepoFound = true)
    (hfail : env.diff = none ∨ env.diff = some none ∨ env.httpOk = false ∨
      env.responseText = none) :
    (generateCommitMessage env).scmInput = env.scmInputValue ∧
    ((generateCommitMessage env).infoMessages ≠ [] ∨
      (generateCommitMessage env).errorMessages ≠ []) ∧
    ((env.diff = none ∨
        (∃ d, env.diff = some (some d) ∧ env.httpOk = true ∧ env.responseText = none)) →
      (generateCommitMessage env).loggedErrors ≠ []) := by
  unfold generateCommitMessage
  rw [hkey, hrepo, hscm]
  rcases hfail with h | h | h | h
  · rw [h]
    simp
  · rw [h]
    simp
  · rcases hd : env.diff with _ | ⟨_ | d⟩
    · simp [hd]
    · simp
    · rw [h]
      simp [hd]
  · rcases hd : env.diff with _ | ⟨_ | d⟩
    · simp [hd]
    · simp
    · rcases hok : env.httpOk with _ | _
      · simp
      · rw [h]
        simp [hok]

/-- C4 amended witness: the HTTP-401 environment aborts with an error
notification and an unchanged SCM input. -/
theorem c4_failures_abort_without_scm_change_witness :
    (generateCommitMessage envHttpFailure).scmInput = envHttpFailure.scmInputValue ∧
    ((generateCommitMessage envHttpFailure).infoMessages ≠ [] ∨
      (generateCommitMessage envHttpFailure).errorMessages ≠ []) ∧
    ((envHttpFailure.diff = none ∨
        (∃ d, envHttpFailure.diff = some (some d) ∧ envHttpFailure.httpOk = true ∧
          envHttpFailure.responseText = none)) →
      (generateCommitMessage envHttpFailure).loggedErrors ≠ []) :=
  c4_failures_abort_without_scm_change envHttpFailure ("SECRET") rfl rfl rfl
    (by decide)

/-- `[a-zA-Z0-9]`: Lean's `Char.isAlphanum` is exactly ASCII letters and
digits. -/
def alnumRun : Nat → List Char → Bool
  | 0, _ => true
  | _ + 1, [] => false
  | n + 1, c :: cs => c.isAlphanum && alnumRun n cs

/-- The regex `/sk-[a-zA-Z0-9]{32}/` matched at the head of the character
list. -/
def keyMatchHere (l : List Char) : Bool :=
  match l with
  | c1 :: c2 :: c3 :: rest => c1 == 's' && (c2 == 'k' && (c3 == '-' && alnumRun 32 rest))
  | _ => false

/-- The unanchored test `/sk-[a-zA-Z0-9]{32}/.test(value)`: the pattern may
match at any position. -/
def containsKeyMatch : List Char → Bool
  | [] => false
  | c :: cs => keyMatchHere (c :: cs) || containsKeyMatch cs

/-- `validateInput` (lines 423-426): returns the error string for a falsy
value or one the regex does not match, otherwise undefined. -/
def validateInput (value : String) : Option String :=
  if !jsStringTruthy value || !containsKeyMatch value.data then
    some ("Please enter a valid OpenAI API key")
  else none

theorem alnumRun_iff (n : Nat) (l : List Char) :
    alnumRun n l = true ↔
      ∃ mid q, l = mid ++ q ∧ mid.length = n ∧ ∀ c ∈ mid, c.isAlphanum = true := by
  induction n generalizing l with
  | zero =>
    constructor
    · intro _
      exact ⟨[], l, rfl, rfl, by simp⟩
    · intro _
      rfl
  | succ n ih =>
    cases l with
    | nil =>
      constructor
      · intro h
        simp [alnumRun] at h
      · rintro ⟨mid, q, hl, hlen, -⟩
        rcases List.append_eq_nil.mp hl.symm with ⟨rfl, rfl⟩
        simp at hlen
    | cons c cs =>
      simp only [alnumRun, Bool.and_eq_true, ih]
      constructor
      · rintro ⟨hc, mid, q, hl, hlen, hal⟩
        refine ⟨c :: mid, q, by simp [hl], by simp [hlen], ?_⟩
        intro x hx
        rcases List.mem_cons.mp hx with rfl | hx
        · exact hc
        · exact hal x hx
      · rintro ⟨mid, q, hl, hlen, hal⟩
        cases mid with
        | nil => simp at hlen
        | cons m ms =>
          rw [List.cons_append] at hl
          obtain ⟨rfl, rfl⟩ : c = m ∧ cs = ms ++ q := by
            constructor
            · exact (List.cons.injEq _ _ _ _ ▸ hl).1
            · exact (List.cons.injEq _ _ _ _ ▸ hl).2
          refine ⟨hal c (List.mem_cons_self c ms), ms, q, rfl, by simpa using hlen, ?_⟩
          intro x hx
          exact hal x (List.mem_cons_of_mem c hx)

theorem keyMatchHere_iff (l : List Char) :
    keyMatchHere l = true ↔
      ∃ mid q, l = 's' :: 'k' :: '-' :: (mid ++ q) ∧ mid.length = 32 ∧
        ∀ c ∈ mid, c.isAlphanum = true := by
  match l with
  | [] => simp [keyMatchHere]
  | [c1] => simp [keyMatchHere]
  | [c1, c2] => simp [keyMatchHere]
  | c1 :: c2 :: c3 :: rest =>
    simp only [keyMatchHere, Bool.and_eq_true, beq_iff_eq, alnumRun_iff]
    constructor
    · rintro ⟨rfl, rfl, rfl, mid, q, hr, hlen, hal⟩
      exact ⟨mid, q, by rw [hr], hlen, hal⟩
    · rintro ⟨mid, q, hl, hlen, hal⟩
      obtain ⟨rfl, rfl, rfl, hrest⟩ :
          c1 = 's' ∧ c2 = 'k' ∧ c3 = '-' ∧ rest = mid ++ q := by
        injection hl with h1 hl
        injection hl with h2 hl
        injection hl with h3 hl
        exact ⟨h1, h2, h3, hl⟩
      exact ⟨rfl, rfl, rfl, mid, q, hrest, hlen, hal⟩

theorem containsKeyMatch_iff (l : List Char) :
    containsKeyMatch l = true ↔ ∃ p r, l = p ++ r ∧ keyMatchHere r = true := by
  induction l with
  | nil =>
    simp only [containsKeyMatch]
    constructor
    · intro h
      simp at h
    · rintro ⟨p, r, hl, hm⟩
      rcases List.append_eq_nil.mp hl.symm with ⟨rfl, rfl⟩
      simp [keyMatchHere] at hm
  | cons c cs ih =>
    simp only [containsKeyMatch, Bool.or_eq_true, ih]
    constructor
    · rintro (h | ⟨p, r, hl, hm⟩)
      · exact ⟨[], c :: cs, rfl, h⟩
      · exact ⟨c :: p, r, by simp [hl], hm⟩
    · rintro ⟨p, r, hl, hm⟩
      cases p with
      | nil =>
        left
        rw [List.nil_append] at hl
        rw [hl]
        exact hm
      | cons x xs =>
        right
        rw [List.cons_append] at hl
        injection hl with h1 h2
        exact ⟨xs, r, h2, hm⟩

/-- C10: the input-box validation accepts a value exactly when it contains a
substring matching `sk-` followed by 32 alphanumeric characters (the pattern
is unanchored); an accepted value is stored verbatim; and a cancelled prompt
makes the command return before any repository access, network call or
secret-store write. -/
theorem c10_api_key_prompt :
    (∀ value : String, validateInput value = none ↔
      ∃ p mid q, value.data = p ++ ('s' :: 'k' :: '-' :: mid) ++ q ∧
        mid.length = 32 ∧ ∀ c ∈ mid, c.isAlphanum = true) ∧
    (∀ env : GenerateCommitMessageEnv,
      jsTruthy env.storedKey = false → env.promptResult = none →
      generateCommitMessage env =
        ⟨[], false, none, env.scmInputValue, [], [], [], [], false⟩) ∧
    (∀ env : GenerateCommitMessageEnv, ∀ r : String,
      jsTruthy env.storedKey = false → env.promptResult = some r → r ≠ "" →
      (generateCommitMessage env).secretWrites = [(("gitlens.openai.key" : String), r)]) := by
  refine ⟨?_, ?_, ?_⟩
  · intro value
    unfold validateInput
    constructor
    · intro h
      have hc : containsKeyMatch value.data = true := by
        by_contra hc
        simp [Bool.not_eq_true] at hc
        simp [hc] at h
      rcases (containsKeyMatch_iff _).mp hc with ⟨p, r, hl, hm⟩
      rcases (keyMatchHere_iff _).mp hm with ⟨mid, q, hr, hlen, hal⟩
      refine ⟨p, mid, q, ?_, hlen, hal⟩
      rw [hl, hr]
      simp
    · rintro ⟨p, mid, q, hl, hlen, hal⟩
      have hm : keyMatchHere ('s' :: 'k' :: '-' :: (mid ++ q)) = true := by
        rw [keyMatchHere_iff]
        exact ⟨mid, q, rfl, hlen, hal⟩
      have hc : containsKeyMatch value.data = true := by
        rw [containsKeyMatch_iff]
        exact ⟨p, 's' :: 'k' :: '-' :: (mid ++ q), by rw [hl]; simp, hm⟩
      have hne : jsStringTruthy value = true := by
        unfold jsStringTruthy
        simp only [Bool.not_eq_true', beq_eq_false_iff_ne, ne_eq]
        intro hv
        rw [hv] at hl
        simp at hl
      simp [hne, hc]
  · intro env hkey hprompt
    unfold generateCommitMessage resolvedKey
    rw [hkey, hprompt]
    simp [jsTruthy]
  · intro env r hkey hprompt hr
    unfold generateCommitMessage resolvedKey
    rw [hkey, hprompt]
    have : jsTruthy (some r) = true := by
      unfold jsTruthy jsStringTruthy
      simpa using hr
    rw [this]
    simp only [if_true, if_false, Bool.false_eq_true, ite_false, ite_true, hkey]
    cases hrep : env.repositoryFound <;> cases hscm : env.scmRepoFound <;>
      simp only [Bool.not_true, Bool.not_false] <;>
      first
        | rfl
        | (cases hd : env.diff with
            | none => rfl
            | some d' =>
              cases d' with
              | none => rfl
              | some d =>
                cases hok : env.httpOk <;>
                  first
                    | rfl
                    | (cases ht : env.responseText <;> rfl))

/-- C10 witness: with no stored key and a cancelled prompt the command
performs no secret write, no repository access and no network call, and a
value containing `sk-` plus 32 alphanumerics validates. -/
theorem c10_api_key_prompt_witness :
    generateCommitMessage ⟨none, none, true, true, some (some ("d")), true, 200, "OK",
        some ("msg"), "x"⟩ =
      ⟨[], false, none, "x", [], [], [], [], false⟩ ∧
    validateInput ("xx sk-abcdefghijklmnopqrstuvwxyz012345 yy") = none := by
  constructor
  · exact c10_api_key_prompt.2.1
      ⟨none, none, true, true, some (some ("d")), true, 200, "OK", some ("msg"), "x"⟩
      rfl rfl
  · rw [c10_api_key_prompt.1]
    exact ⟨("xx ").data, ("abcdefghijklmnopqrstuvwxyz012345").data, (" yy").data,
      by decide, by decide, by decide⟩

/-! ### Graph webview app (src/webviews/apps/plus/graph/graph.tsx) -/

/-- The slice of `GraphConfig` the app reads: `config?.columnColors`. -/
structure GraphConfig where
  columnColors : Option (List String)
deriving DecidableEq, Repr

/-- The webview state fields `graph.tsx` touches, plus `selectedRepository`
standing for the fields it leaves alone. Commits and log entries are opaque
payloads. -/
structure GraphState where
  commits : List String
  log : Option String
  config : Option GraphConfig
  mixedColumnColors : Option (List (String × String))
  selectedRepository : Option String
deriving DecidableEq, Repr

/-- Modelled from the spec: `mix` from `../../shared/colors` (not under src/)
blends the theme background color into a column color at a percentage; only
its opaque result matters here. -/
def mix (bg c : String) (p : Nat) : String :=
  "mix(" ++ bg ++ "," ++ c ++ "," ++ toString p ++ ")"

/-- Modelled from the spec: `opacity` from `../../shared/colors` (not under
src/) applies an opacity percentage to a color; only its opaque result
matters here. -/
def opacity (c : String) (p : Nat) : String :=
  "opacity(" ++ c ++ "," ++ toString p ++ ")"

/-- The fallback palette of `getGraphColors` (line 127). -/
def defaultColumnColors : List String :=
  ["#00bcd4", "#ff9800", "#9c27b0", "#2196f3", "#009688", "#ffeb3b", "#ff5722", "#795548"]

/-- `config?.columnColors != null ? config.columnColors : [...]`
(lines 124-127). -/
def columnColorsOf (config : Option GraphConfig) : List String :=
  match config with
  | some cfg =>
    match cfg.columnColors with
    | some cc => cc
    | none => defaultColumnColors
  | none => defaultColumnColors

/-- One iteration of the loop of `getGraphColors` (lines 129-138): the base
color under two names, four background mixes, two opacity variants. -/
def graphColorEntries (bg : String) (i : Nat) (c : String) : List (String × String) :=
  [(s!"--graph-color-{i}", c), (s!"--column-{i}-color", c)] ++
    ([15, 25, 45, 50].map fun m => (s!"--graph-color-{i}-bg{m}", mix bg c m)) ++
    ([10, 50].map fun m => (s!"--graph-color-{i}-f{m}", opacity c m))

/-- The loop of `getGraphColors`, indexed from `i`. -/
def getGraphColorsAux (bg : String) : Nat → List String → List (String × String)
  | _, [] => []
  | i, c :: cs => graphColorEntries bg i c ++ getGraphColorsAux bg (i + 1) cs

/-- `getGraphColors` (lines 119-140): the CSS-variable mapping computed from
the theme background color and the configured (or default) column colors. -/
def getGraphColors (bg : String) (config : Option GraphConfig) : List (String × String) :=
  getGraphColorsAux bg 0 (columnColorsOf config)

/-- The `setState` override (lines 112-117): recomputes `mixedColumnColors`
from the configuration whenever it is nullish. -/
def setState (bg : String) (s : GraphState) : GraphState :=
  match s.mixedColumnColors with
  | none => { s with mixedColumnColors := some (getGraphColors bg s.config) }
  | some _ => s

/-- The host messages `onMessageReceived` switches on; `other` is any
unrecognized method name. -/
inductive GraphMessage where
  | didChange (state : GraphState)
  | didChangeCommits (commits : List String) (log : Option String)
  | didChangeGraphConfiguration (config : GraphConfig)
  | other (method : String)

/-- What `onMessageReceived` does with a message: handle it (new state after
`setState`, and whether `refresh` re-rendered) or delegate to the base
handler. -/
inductive DispatchResult where
  | handled (state : GraphState) (rendered : Bool)
  | delegated
deriving DecidableEq, Repr

/-- `onMessageReceived` (lines 62-105). -/
def onMessageReceived (bg : String) (s : GraphState) (msg : GraphMessage) : DispatchResult :=
  match msg with
  | .didChange st =>
    .handled (setState bg { st with mixedColumnColors := none }) true
  | .didChangeCommits commits log =>
    .handled (setState bg { s with commits := commits, log := log }) true
  | .didChangeGraphConfiguration config =>
    .handled (setState bg { s with config := some config, mixedColumnColors := none }) true
  | .other _ => .delegated

/-- C6: a commits-changed notification replaces exactly the commits and log
fields and re-renders; a configuration-changed notification replaces the
config field and resets the mixed column-color mapping, recomputed from the
new configuration; an unrecognized method is delegated to the base
handler. -/
theorem c6_graph_message_dispatch (bg : String) (s : GraphState)
    (colors : List (String × String)) (hcolors : s.mixedColumnColors = some colors) :
    (∀ commits log,
      onMessageReceived bg s (.didChangeCommits commits log) =
        .handled { s with commits := commits, log := log } true) ∧
    (∀ config,
      onMessageReceived bg s (.didChangeGraphConfiguration config) =
        .handled
          { s with config := some config,
                   mixedColumnColors := some (getGraphColors bg (some config)) }
          true) ∧
    (∀ method,
      onMessageReceived bg s (.other method) = DispatchResult.delegated) := by
  refine ⟨?_, ?_, ?_⟩
  · intro commits log
    unfold onMessageReceived setState
    simp [hcolors]
  · intro config
    unfold onMessageReceived setState
    rfl
  · intro method
    rfl

/-- C6 witness: dispatch on a concrete state whose color mapping is
present. -/
theorem c6_graph_message_dispatch_witness :
    (∀ commits log,
      onMessageReceived "#fff" ⟨[], none, none, some [], none⟩
          (.didChangeCommits commits log) =
        .handled ⟨commits, log, none, some [], none⟩ true) ∧
    (∀ config,
      onMessageReceived "#fff" ⟨[], none, none, some [], none⟩
          (.didChangeGraphConfiguration config) =
        .handled ⟨[], none, some config, some (getGraphColors "#fff" (some config)), none⟩
          true) ∧
    (∀ method,
      onMessageReceived "#fff" ⟨[], none, none, some [], none⟩ (.other method) =
        DispatchResult.delegated) :=
  c6_graph_message_dispatch "#fff" ⟨[], none, none, some [], none⟩ [] rfl

theorem length_graphColorEntries (bg : String) (i : Nat) (c : String) :
    (graphColorEntries bg i c).length = 8 := rfl

theorem length_getGraphColorsAux (bg : String) (l : List String) (i : Nat) :
    (getGraphColorsAux bg i l).length = 8 * l.length := by
  induction l generalizing i with
  | nil => rfl
  | cons c cs ih =>
    simp only [getGraphColorsAux, List.length_append, length_graphColorEntries, ih,
      List.length_cons]
    ring

theorem mem_getGraphColorsAux (bg : String) (l : List String) :
    ∀ i j c, l[j]? = some c →
      ∀ e ∈ graphColorEntries bg (i + j) c, e ∈ getGraphColorsAux bg i l := by
  induction l with
  | nil =>
    intro i j c hj
    simp at hj
  | cons x xs ih =>
    intro i j c hj e he
    cases j with
    | zero =>
      simp only [List.getElem?_cons_zero, Option.some.injEq] at hj
      subst hj
      simp only [getGraphColorsAux, List.mem_append]
      left
      simpa using he
    | succ j =>
      simp only [List.getElem?_cons_succ] at hj
      have he' : e ∈ graphColorEntries bg ((i + 1) + j) c := by
        have harith : i + (j + 1) = (i + 1) + j := by omega
        rwa [harith] at he
      simp only [getGraphColorsAux, List.mem_append]
      right
      exact ih (i + 1) j c hj e he'

/-- C9: after every `setState` call the mixed column-color mapping is
non-null — when null it is recomputed from the configuration's column colors
(or the fixed default palette of 8 colors when the configuration supplies
none) — and the computed mapping has exactly 8 CSS variables per column
color: the base color under two names, four background mixes at 15/25/45/50,
and two opacity variants at 10/50. -/
theorem c9_mixed_column_colors (bg : String) (s : GraphState) :
    ((setState bg s).mixedColumnColors).isSome = true ∧
    (s.mixedColumnColors = none →
      (setState bg s).mixedColumnColors = some (getGraphColors bg s.config)) ∧
    (∀ colors, s.mixedColumnColors = some colors → setState bg s = s) ∧
    (columnColorsOf none).length = 8 ∧
    (∀ cfg : Option GraphConfig,
      (getGraphColors bg cfg).length = 8 * (columnColorsOf cfg).length) ∧
    (∀ (cfg : Option GraphConfig) (i : Nat) (c : String),
      (columnColorsOf cfg)[i]? = some c →
      (s!"--graph-color-{i}", c) ∈ getGraphColors bg cfg ∧
      (s!"--column-{i}-color", c) ∈ getGraphColors bg cfg ∧
      (∀ m ∈ [15, 25, 45, 50],
        (s!"--graph-color-{i}-bg{m}", mix bg c m) ∈ getGraphColors bg cfg) ∧
      (∀ m ∈ [10, 50],
        (s!"--graph-color-{i}-f{m}", opacity c m) ∈ getGraphColors bg cfg)) := by
  refine ⟨?_, ?_, ?_, rfl, ?_, ?_⟩
  · unfold setState
    cases h : s.mixedColumnColors <;> simp [h]
  · intro h
    unfold setState
    rw [h]
  · intro colors h
    unfold setState
    rw [h]
  · intro cfg
    exact length_getGraphColorsAux bg (columnColorsOf cfg) 0
  · intro cfg i c hc
    have hmem := mem_getGraphColorsAux bg (columnColorsOf cfg) 0 i c hc
    simp only [Nat.zero_add] at hmem
    refine ⟨?_, ?_, ?_, ?_⟩
    · exact hmem _ (by simp [graphColorEntries])
    · exact hmem _ (by simp [graphColorEntries])
    · intro m hm
      refine hmem _ ?_
      unfold graphColorEntries
      simp only [List.mem_append, List.mem_map]
      left
      right
      exact ⟨m, hm, rfl⟩
    · intro m hm
      refine hmem _ ?_
      unfold graphColorEntries
      simp only [List.mem_append, List.mem_map]
      right
      exact ⟨m, hm, rfl⟩

/-! ### Commit-search wizard (src/commands/git/search.ts, lines 99-391) -/

/-- The wizard's back-navigation bookkeeping: the step counter (a JavaScript
number, so it may go negative), the search pattern, and whether the
repository step was auto-skipped this iteration. -/
structure SearchWizardNav where
  counter : Int
  pattern : Option String
  skippedStepOne : Bool
deriving DecidableEq, Repr

/-- The result of an interactive pick step. -/
inductive StepOutcome (α : Type) where
  | broke
  | picked (a : α)
deriving DecidableEq, Repr

/-- The repository step (lines 129-145): entering the branch resets
`skippedStepOne`; with exactly one open repository the step is auto-skipped,
`skippedStepOne` is set, the counter is incremented when no repository was
selected yet, and the single repository is taken; otherwise the interactive
pick runs and a `Break` result exits the loop. Returns the state, the
selected repository, and whether the loop broke. -/
def repositoryStep (repos : List String) (pick : StepOutcome String)
    (s : SearchWizardNav) (repo : Option String) :
    SearchWizardNav × Option String × Bool :=
  if h : repos.length = 1 then
    ({ s with skippedStepOne := true,
              counter := if repo = none then s.counter + 1 else s.counter },
      some (repos.get ⟨0, by omega⟩), false)
  else
    match pick with
    | .broke => ({ s with skippedStepOne := false }, repo, true)
    | .picked r => ({ s with skippedStepOne := false }, some r, false)

/-- The cancel path of the search-pattern step: `pickSearchOperatorStep`
decrements the counter before returning `Break` (line 383), then the steps
loop decrements once more when step one was skipped and clears the pattern
(lines 149-157). -/
def cancelSearchPatternStep (s : SearchWizardNav) : SearchWizardNav :=
  let s1 : SearchWizardNav := { s with counter := s.counter - 1 }
  let s2 : SearchWizardNav :=
    if s1.skippedStepOne then { s1 with counter := s1.counter - 1 } else s1
  { s2 with pattern := none }

/-- What the steps generator returns (line 270):
`state.counter < 0 ? StepResult.Break : undefined`. -/
inductive StepsReturn where
  | Break
  | undefinedResult
deriving DecidableEq, Repr

/-- The generator's final result as a function of the counter. -/
def stepsLoopResult (s : SearchWizardNav) : StepsReturn :=
  if s.counter < 0 then StepsReturn.Break else StepsReturn.undefinedResult

/-- C7: cancelling the search-pattern step clears the pattern and decrements
the counter — one extra time exactly when the repository step was
auto-skipped, which happens exactly when one repository is open — and the
step loop's return is `Break` exactly when the counter is negative. -/
theorem c7_back_navigation_counter (s : SearchWizardNav) :
    (cancelSearchPatternStep s).pattern = none ∧
    (cancelSearchPatternStep s).counter =
      s.counter - (if s.skippedStepOne then 2 else 1) ∧
    (∀ (repos : List String) (pick : StepOutcome String) (repo : Option String),
      ((repositoryStep repos pick s repo).1).skippedStepOne = (repos.length == 1)) ∧
    (∀ t : SearchWizardNav, stepsLoopResult t = StepsReturn.Break ↔ t.counter < 0) := by
  refine ⟨?_, ?_, ?_, ?_⟩
  · by_cases h : s.skippedStepOne <;> simp [cancelSearchPatternStep, h]
  · by_cases h : s.skippedStepOne
    · simp only [cancelSearchPatternStep, h, if_true]
      omega
    · simp [cancelSearchPatternStep, h]
  · intro repos pick repo
    by_cases h : repos.length = 1
    · simp [repositoryStep, h]
    · cases pick <;> simp [repositoryStep, h, beq_eq_false_iff_ne]
  · intro t
    unfold stepsLoopResult
    split_ifs with h <;> simp [h]

/-- The fields of `SearchPattern` (a `Required<SearchPattern>` state holds
all four). -/
structure SearchPattern where
  pattern : String
  matchAll : Bool
  matchCase : Bool
  matchRegex : Bool
deriving DecidableEq, Repr

/-- Modelled from the spec: `SearchPattern.toKey` from `git/search` (not
under src/) derives a cache key from a search pattern; only that equal
patterns give equal keys matters, so the four fields are serialised. -/
def SearchPattern.toKey (s : SearchPattern) : String :=
  s.pattern ++ "|" ++ toString s.matchAll ++ "|" ++ toString s.matchCase ++ "|" ++
    toString s.matchRegex

/-- The wizard state fields read when building the search (lines 163-168). -/
structure WizardSearchState where
  pattern : String
  matchAll : Bool
  matchCase : Bool
  matchRegex : Bool
deriving DecidableEq, Repr

/-- A query issued to `repo.searchForCommits`: the repository it ran against
and the exact pattern object handed over. -/
structure IssuedQuery where
  repoPath : String
  search : SearchPattern
deriving DecidableEq, Repr

/-- The context fields `resultsKey`/`resultsPromise` (lines 32-33, 105-106);
the promise is identified by the query that created it. -/
structure QueryContext where
  resultsKey : Option String
  resultsPromise : Option IssuedQuery
deriving DecidableEq, Repr

/-- Lines 163-174: build the search from the state, and issue a new query
exactly when there is no results promise or the key changed; otherwise the
existing promise is reused. The Bool records whether a new query was
issued. -/
def ensureSearchResults (repoPath : String) (ctx : QueryContext)
    (st : WizardSearchState) : QueryContext × Bool :=
  let search : SearchPattern := ⟨st.pattern, st.matchAll, st.matchCase, st.matchRegex⟩
  let searchKey := SearchPattern.toKey search
  if ctx.resultsPromise = none ∨ ctx.resultsKey ≠ some searchKey then
    (⟨some searchKey, some ⟨repoPath, search⟩⟩, true)
  else
    (ctx, false)

/-- C8: the pattern object handed to `searchForCommits` is exactly the
user-supplied pattern text and the three flags, unmodified; a new query is
issued exactly when there is no previous promise or the pattern's key
differs from the previous key, and otherwise the context (hence the results
promise) is unchanged. -/
theorem c8_search_pattern_handed_unmodified (repoPath : String)
    (ctx : QueryContext) (st : WizardSearchState) :
    ((ensureSearchResults repoPath ctx st).2 = true ↔
      (ctx.resultsPromise = none ∨
        ctx.resultsKey ≠
          some (SearchPattern.toKey ⟨st.pattern, st.matchAll, st.matchCase, st.matchRegex⟩))) ∧
    ((ensureSearchResults repoPath ctx st).2 = true →
      (ensureSearchResults repoPath ctx st).1.resultsPromise =
        some ⟨repoPath, ⟨st.pattern, st.matchAll, st.matchCase, st.matchRegex⟩⟩) ∧
    ((ensureSearchResults repoPath ctx st).2 = false →
      ensureSearchResults repoPath ctx st = (ctx, false)) := by
  by_cases h : ctx.resultsPromise = none ∨
      ctx.resultsKey ≠
        some (SearchPattern.toKey ⟨st.pattern, st.matchAll, st.matchCase, st.matchRegex⟩)
  · simp [ensureSearchResults, h]
  · rw [not_or] at h
    obtain ⟨h1, h2⟩ := h
    rw [Ne, not_not] at h2
    simp [ensureSearchResults, h1, h2]

end GitLens
